/-
Verification of the fixed-point numeric core of the nova-ecs-math repository
(class Fixed, src/Fixed.ts).

Embedding conventions:
* A Fixed value is represented by its raw value, a mathematical integer
  (the source stores it in a JS double; all values of interest are exact
  integers below 2^53, so the ideal-integer model is faithful).
* JS Math.round on an exact rational q is round-to-nearest with ties toward
  positive infinity, i.e. the floor of q + 1/2.  `jsRound num den` computes
  that for q = num/den.  Lean integer division `/` is Euclidean division,
  which is floor division whenever the divisor is positive, matching
  Math.floor of an exact quotient.
* Methods that throw (`throw new Error(...)`) are modelled in `Except Err`.
* In-place methods mutate the receiver and return it; value-wise they
  compute exactly what the non-in-place version computes, so they are
  modelled as functions returning the new raw value.
-/
import Mathlib

namespace Fixed

/-- The error signals thrown by the source, one per distinct message. -/
inductive Err where
  | divisionByZero
  | moduloByZero
  | negativeSqrt
  | undefinedTangent
  | lnDomain
  deriving DecidableEq, Repr

/-- `Fixed.SCALE = 1000000` from the source. -/
def SCALE : Int := 1000000

/-- JS `Math.round (num / den)` for an exact rational `num / den`:
round to nearest, ties toward positive infinity, i.e. `⌊num/den + 1/2⌋`.
For a positive denominator this is `(2*num + den) / (2*den)` with floor
division; a negative denominator is first sign-normalized. -/
def jsRound (num den : Int) : Int :=
  if 0 ≤ den then (2 * num + den) / (2 * den)
  else (2 * (-num) + (-den)) / (2 * (-den))

/-- `new Fixed(v)` for a numeric `v = num / den`:
`this._value = Math.round(value * Fixed.SCALE)`. -/
def ofValue (num den : Int) : Int := jsRound (num * SCALE) den

/-- `Fixed.ZERO` raw value. -/
def ZERO : Int := 0

/-- `Fixed.ONE` raw value. -/
def ONE : Int := 1000000

/-- `Fixed.TWO` raw value. -/
def TWO : Int := 2000000

/-- `Fixed.PI` raw value: `Math.round(3.141592653589793e6)`. -/
def PI : Int := 3141593

/-- `Fixed.PI_2` raw value: `Math.round(1.5707963267948966e6)`. -/
def PI_2 : Int := 1570796

/-- `Fixed.PI_HALF` raw value (alias constant in the source, same literal). -/
def PI_HALF : Int := 1570796

/-- `Fixed.PI_4` raw value: `Math.round(0.7853981633974483e6)`. -/
def PI_4 : Int := 785398

/-- `Fixed.TWO_PI` raw value: `Math.round(6.283185307179586e6)`. -/
def TWO_PI : Int := 6283185

/-- `add`: `fromRaw(this._value + other._value)`. -/
def add (a b : Int) : Int := a + b

/-- `subtract`: `fromRaw(this._value - other._value)`. -/
def subtract (a b : Int) : Int := a - b

/-- `multiply`: `fromRaw(Math.round((this._value * other._value) / SCALE))`. -/
def multiply (a b : Int) : Int := jsRound (a * b) SCALE

/-- `divide`: throws on a zero divisor, else
`fromRaw(Math.round((this._value * SCALE) / other._value))`. -/
def divide (a b : Int) : Except Err Int :=
  if b = 0 then .error .divisionByZero
  else .ok (jsRound (a * SCALE) b)

/-- `divideInPlace`: same zero check and same computation as `divide`,
storing the result into the receiver. -/
def divideInPlace (a b : Int) : Except Err Int :=
  if b = 0 then .error .divisionByZero
  else .ok (jsRound (a * SCALE) b)

/-- `abs`: `fromRaw(Math.abs(this._value))`. -/
def abs (a : Int) : Int := |a|

/-- `negate`: `fromRaw(-this._value)`. -/
def negate (a : Int) : Int := -a

/-- `floor`: `fromRaw(Math.floor(this._value / SCALE) * SCALE)`. -/
def floor (a : Int) : Int := a / SCALE * SCALE

/-- `ceil`: `fromRaw(Math.ceil(this._value / SCALE) * SCALE)`;
the ceiling of an exact quotient is the negated floor of the negation. -/
def ceil (a : Int) : Int := -(-a / SCALE) * SCALE

/-- `round`: `fromRaw(Math.round(this._value / SCALE) * SCALE)`. -/
def round (a : Int) : Int := jsRound a SCALE * SCALE

/-- `frac`: `this.subtract(this.floor())`. -/
def frac (a : Int) : Int := subtract a (floor a)

/-- `mod`: throws on zero divisor, else
`this.subtract(divisor.multiply(this.divide(divisor).floor()))`. -/
def mod (a b : Int) : Except Err Int :=
  if b = 0 then .error .moduloByZero
  else do
    let q ← divide a b
    .ok (subtract a (multiply b (floor q)))

/-- The string branch of the constructor, modelled at the point after JS
`parseFloat`: a well-formed decimal string yields the exact rational
`num / den` (`some (num, den)`), a malformed one yields NaN (`none`).
`Math.round(NaN * SCALE)` is NaN and the source constructor contains no
throw statement: it unconditionally stores the (possibly NaN) product.
The `Except` wrapper only makes the absence of an error signal expressible;
a `none` result is a Fixed whose raw value is NaN. -/
def ofString (pf : Option (Int × Int)) : Except Err (Option Int) :=
  Except.ok (pf.map (fun p => ofValue p.1 p.2))

/-! ### Basic lemmas about the rounding primitive -/

theorem jsRound_of_nonneg_den (num den : Int) (h : 0 ≤ den) :
    jsRound num den = (2 * num + den) / (2 * den) := by
  simp [jsRound, h]

/-- Multiplying an integer back out of a SCALE-denominator rounding is exact. -/
theorem jsRound_mul_scale (t : Int) : jsRound (t * 1000000) 1000000 = t := by
  unfold jsRound
  norm_num
  omega

/-- Fixed multiplication by ONE is exact. -/
theorem multiply_ONE (t : Int) : multiply t ONE = t := by
  have h := jsRound_mul_scale t
  simpa [multiply, ONE, SCALE] using h

/-- Fixed multiplication by the negation of ONE is exact negation. -/
theorem multiply_negONE (t : Int) : multiply t (negate ONE) = -t := by
  have h := jsRound_mul_scale (-t)
  simp [multiply, negate, ONE, SCALE] at *
  exact h

/-- The copy constructor round trip `new Fixed(x.toNumber())` is the identity
on raw values. -/
theorem ofValue_scale_self (t : Int) : ofValue t SCALE = t := by
  have h := jsRound_mul_scale t
  simpa [ofValue, SCALE] using h

theorem add_ZERO_left (t : Int) : add ZERO t = t := by
  simp [add, ZERO]

theorem multiply_zero_right (t : Int) : multiply t 0 = 0 := by
  simp [multiply, jsRound, SCALE]

/-! ### C3: divide / divideInPlace -/

/-- C3: divide (and divideInPlace) raises the division-by-zero error iff the
raw divisor is 0; for every nonzero divisor it raises nothing and returns
fromRaw(round(a.raw * 1000000 / b.raw)). -/
theorem divide_spec_correct : ∀ a b : Int,
    divide a b = (if b = 0 then Except.error Err.divisionByZero
      else Except.ok (jsRound (a * 1000000) b)) ∧
    divideInPlace a b = divide a b := by
  intro a b
  constructor
  · simp [divide, SCALE]
  · simp [divide, divideInPlace]

/-! ### C9: frac -/

/-- C9: frac x equals x - floor x, its raw value is always nonnegative, and
frac(-2.3) = 0.7. -/
theorem frac_spec_correct : ∀ x : Int,
    frac x = subtract x (floor x) ∧ 0 ≤ frac x ∧ frac (-2300000) = 700000 := by
  intro x
  refine ⟨rfl, ?_, by decide⟩
  show 0 ≤ subtract x (floor x)
  simp only [subtract, floor, SCALE]
  omega

/-! ### C5: rounding policy (corrected) -/

/-- C5 counterexample: the round method on raw -2500000 (the value -2.5)
returns raw -2000000 (-2), not raw -3000000 (-3): ties are not rounded away
from zero. -/
theorem round_half_counterexample :
    round (-2500000) = -2000000 ∧ ¬ round (-2500000) = -3000000 := by decide

/-- C5 amended: floor and ceil rescale using exact integer floor and ceiling
as claimed, but every tie is rounded half toward positive infinity (the JS
Math.round convention), not away from zero: round x lands on
floor(x/SCALE + 1/2) rescaled, construction from v = num/den stores
round-half-up of v * SCALE, and in particular round(-2.5) = -2 while
constructing -2.0000005 stores raw -2000000. -/
theorem rounding_amended :
    (∀ x : Int, floor x ≤ x ∧ x < floor x + 1000000 ∧ (1000000 : Int) ∣ floor x) ∧
    (∀ x : Int, x ≤ ceil x ∧ ceil x - 1000000 < x ∧ (1000000 : Int) ∣ ceil x) ∧
    (∀ x : Int, round x = (x + 500000) / 1000000 * 1000000) ∧
    ofValue (-4000001) 2000000 = -2000000 ∧
    round (-2500000) = -2000000 := by
  refine ⟨?_, ?_, ?_, by decide, by decide⟩
  · intro x
    simp only [floor, SCALE]
    refine ⟨?_, ?_, ?_⟩ <;> omega
  · intro x
    simp only [ceil, SCALE]
    refine ⟨?_, ?_, ?_⟩ <;> omega
  · intro x
    simp only [round, jsRound, SCALE]
    norm_num
    omega

/-! ### C4: mod (corrected) -/

/-- C4 counterexample: mod(5.999999, 3) returns raw -1 (the value -0.000001),
which is negative while the divisor is positive: the result does not always
carry the sign of the divisor. -/
theorem mod_sign_counterexample :
    mod 5999999 3000000 = Except.ok (-1) ∧ (0 : Int) < 3000000 ∧ (-1 : Int) < 0 := by
  refine ⟨rfl, by norm_num, by norm_num⟩

/-- C4 amended: mod raises the modulo-by-zero error exactly when the raw
divisor is 0, and otherwise returns a - b * floor(a/b) computed with the
fixed-point divide, floor, multiply and subtract; the examples
(-7) mod 3 = 2, 7 mod (-3) = -2 and 15 mod 5 = 0 hold, but the result does
not always have the sign of the divisor: the round-to-nearest fixed-point
division can push the quotient across an integer boundary, e.g.
mod(5.999999, 3) = -0.000001. -/
theorem mod_amended : ∀ a b : Int,
    (mod a b = if b = 0 then Except.error Err.moduloByZero
      else Except.ok (subtract a (multiply b (floor (jsRound (a * 1000000) b))))) ∧
    mod (-7000000) 3000000 = Except.ok 2000000 ∧
    mod 7000000 (-3000000) = Except.ok (-2000000) ∧
    mod 15000000 5000000 = Except.ok 0 ∧
    mod 5999999 3000000 = Except.ok (-1) := by
  intro a b
  refine ⟨?_, rfl, rfl, rfl, rfl⟩
  by_cases h : b = 0
  · simp [mod, h]
  · simp [mod, divide, h, SCALE]
    rfl

/-! ### C6: string construction (corrected) -/

/-- C6 counterexample: constructing from a malformed decimal string (one on
which parseFloat returns NaN) does not raise any error: the constructor
returns a Fixed whose raw value is NaN. -/
theorem fromString_no_error_counterexample :
    ofString Option.none = Except.ok Option.none ∧
    ∀ e : Err, ofString Option.none ≠ Except.error e := by
  refine ⟨rfl, ?_⟩
  intro e h
  simp [ofString] at h

/-- C6 amended: the string branch of the constructor never raises; a
well-formed decimal string stores the rounded scaled value and a malformed
one silently stores NaN (parseFloat yields NaN and Math.round propagates it),
producing an invalid Fixed value rather than a ParseError. -/
theorem fromString_amended :
    (∀ pf : Option (Int × Int),
      ofString pf = Except.ok (pf.map (fun p => ofValue p.1 p.2))) ∧
    (∀ pf e, ofString pf ≠ Except.error e) ∧
    ofString Option.none = Except.ok Option.none := by
  refine ⟨fun pf => rfl, ?_, rfl⟩
  intro pf e h
  simp [ofString] at h

/-! ### Monadic reduction helpers -/

theorem ok_bind {a : Int} {f : Int → Except Err Int} :
    (Except.ok a >>= f) = f a := rfl

theorem error_bind {e : Err} {f : Int → Except Err Int} :
    ((Except.error e : Except Err Int) >>= f) = Except.error e := rfl

/-! ### C1: square root -/

/-- The body of the sqrt iteration, exactly as in the source:
`prev = x; x = x.add(this.divide(x)).divide(TWO); break when
x.subtract(prev).abs().rawValue <= 1`; the fuel is the remaining trips of
the 20-round for loop, and the current x is returned when it runs out. -/
def sqrtGo (a : Int) : Nat → Int → Except Err Int
  | 0, x => .ok x
  | fuel + 1, x => do
      let q ← divide a x
      let xn ← divide (add x q) TWO
      if abs (subtract xn x) ≤ 1 then .ok xn else sqrtGo a fuel xn

/-- `sqrt`: negative check, shortcuts for 0 and 1, then Newton iteration
starting from a/2 when a > 1 and 1 otherwise. -/
def sqrt (a : Int) : Except Err Int :=
  if a < ZERO then .error .negativeSqrt
  else if a = ZERO then .ok ZERO
  else if a = ONE then .ok ONE
  else do
    let x0 ← if ONE < a then divide a TWO else pure ONE
    sqrtGo a 20 x0

/-- Modelled from the claim wording of C1: one Newton-Raphson step
`x_next = (x + a/x) / 2` in fixed-point arithmetic. -/
def newtonStep (a x : Int) : Except Err Int := do
  let q ← divide a x
  divide (add x q) TWO

/-- Modelled from the claim wording of C1: iterate the Newton step at most
the given number of rounds, stopping early as soon as the step moves by at
most 1 raw unit. -/
def newtonIter (a : Int) : Nat → Int → Except Err Int
  | 0, x => .ok x
  | n + 1, x => do
      let x1 ← newtonStep a x
      if abs (subtract x1 x) ≤ 1 then .ok x1 else newtonIter a n x1

/-- Modelled from the claim wording of C1: negative inputs fail with the
negative-square-root error, sqrt(0) = 0 and sqrt(1) = 1 exactly, and
otherwise at most 20 Newton-Raphson rounds from x0 = a/2 (a > 1) or 1. -/
def sqrtSpec (a : Int) : Except Err Int :=
  if a < 0 then .error .negativeSqrt
  else if a = 0 then .ok 0
  else if a = ONE then .ok ONE
  else do
    let x0 ← if ONE < a then divide a TWO else pure ONE
    newtonIter a 20 x0

theorem sqrtGo_eq_newtonIter : ∀ (n : Nat) (a x : Int),
    sqrtGo a n x = newtonIter a n x := by
  intro n
  induction n with
  | zero => intro a x; rfl
  | succ n ih =>
    intro a x
    show (do
        let q ← divide a x
        let xn ← divide (add x q) TWO
        if abs (subtract xn x) ≤ 1 then .ok xn else sqrtGo a n xn) =
      (do
        let x1 ← newtonStep a x
        if abs (subtract x1 x) ≤ 1 then .ok x1 else newtonIter a n x1)
    cases hq : divide a x with
    | error e => simp [newtonStep, hq, error_bind]
    | ok q =>
      cases hx : divide (add x q) TWO with
      | error e => simp [newtonStep, hq, hx, ok_bind, error_bind]
      | ok x1 =>
        simp only [newtonStep, hq, hx, ok_bind]
        by_cases hc : abs (subtract x1 x) ≤ 1
        · simp [hc]
        · simp [hc, ih]

/-- C1: sqrt follows the claimed algorithm: Newton-Raphson iteration
`x_next = (x + a/x)/2` in fixed-point arithmetic from x0 = a/2 (a > 1) or 1,
at most 20 rounds with early exit at a raw-unit step of at most 1, with the
shortcuts sqrt(0) = 0 and sqrt(1) = 1, and the negative-square-root error on
every negative input. -/
theorem sqrt_follows_newton_spec : ∀ a : Int, sqrt a = sqrtSpec a := by
  intro a
  unfold sqrt sqrtSpec
  simp only [ZERO]
  by_cases h1 : a < 0
  · simp [h1]
  · simp only [h1, if_false]
    by_cases h2 : a = 0
    · simp [h2]
    · simp only [h2, if_false]
      by_cases h3 : a = ONE
      · simp [h3]
      · simp only [h3, if_false, sqrtGo_eq_newtonIter]

/-! ### exp and ln (needed by pow) -/

/-- The factorial table of the source. -/
def FACTORIALS : List Int :=
  [1, 1, 2, 6, 24, 120, 720, 5040, 40320, 362880, 3628800, 39916800, 479001600]

/-- Loop of `exp`: for i = 1..20,
`term = term.multiply(this).divide(new Fixed(i)); result = result.add(term)`. -/
def expGo (x : Int) : List Int → Int → Int → Except Err Int
  | [], result, _term => .ok result
  | i :: rest, result, term => do
      let t ← divide (multiply term x) (ofValue i 1)
      expGo x rest (add result t) t

/-- `exp`: Taylor series, 20 incrementally built terms on top of 1. -/
def exp (x : Int) : Except Err Int :=
  expGo x [1, 2, 3, 4, 5, 6, 7, 8, 9, 10, 11, 12, 13, 14, 15, 16, 17, 18, 19, 20]
    ONE ONE

/-- Loop of `ln`: for i = 1, 3, ..., 19,
`result = result.add(term.divide(new Fixed(i))); term = term.multiply(r2)`. -/
def lnGo (r2 : Int) : List Int → Int → Int → Except Err Int
  | [], result, _term => .ok result
  | i :: rest, result, term => do
      let t ← divide term (ofValue i 1)
      lnGo r2 rest (add result t) (multiply term r2)

/-- `ln`: domain check, ln(1) = 0 shortcut, then the odd series in
r = (x-1)/(x+1), doubled at the end. -/
def ln (x : Int) : Except Err Int :=
  if x ≤ 0 then .error .lnDomain
  else if x = ONE then .ok ZERO
  else do
    let ratio ← divide (subtract x ONE) (add x ONE)
    let r2 := multiply ratio ratio
    let s ← lnGo r2 [1, 3, 5, 7, 9, 11, 13, 15, 17, 19] ZERO ratio
    .ok (multiply s TWO)

/-! ### C8 and C10: pow -/

/-- The exponentiation-by-squaring loop of `pow`, exactly as in the source:
`while n > 0: if n odd then result = result.multiply(base);
base = base.multiply(base); n = floor(n/2)`. -/
def powLoop (n : Nat) (base result : Int) : Int :=
  if n = 0 then result
  else powLoop (n / 2) (multiply base base)
    (if n % 2 = 1 then multiply result base else result)
  termination_by n
  decreasing_by simp_wf; omega

/-- `pow`: shortcut for exponent 0 (returns ONE) and exponent 1 (returns a
copy `new Fixed(this.toNumber())`); exponentiation by squaring on the
absolute integer exponent with reciprocal for negative exponents; and
`exp(ln(base) * exponent)` for fractional exponents. -/
def pow (base expo : Int) : Except Err Int :=
  if expo = ZERO then .ok ONE
  else if expo = ONE then .ok (ofValue base SCALE)
  else if frac expo = ZERO then
    let n := (expo / SCALE).natAbs
    let result := powLoop n (ofValue base SCALE) ONE
    if expo < ZERO then divide ONE result else .ok result
  else do
    let l ← ln base
    exp (multiply l expo)

/-- Modelled from the claim wording of C8: the same square-and-multiply
accumulator loop on the absolute exponent. -/
def powSpecLoop (n : Nat) (base result : Int) : Int :=
  if n = 0 then result
  else powSpecLoop (n / 2) (multiply base base)
    (if n % 2 = 1 then multiply result base else result)
  termination_by n
  decreasing_by simp_wf; omega

/-- Modelled from the claim wording of C8: exponent 0 gives ONE for every
base, exponent 1 gives a value equal to base, an integer-valued exponent
(raw value divisible by 1000000) runs exponentiation by squaring on the
absolute exponent with a final reciprocal when negative, and a fractional
exponent falls back to exp(ln(base) * exponent). -/
def powSpec (base expo : Int) : Except Err Int :=
  if expo = 0 then .ok ONE
  else if expo = ONE then .ok base
  else if (1000000 : Int) ∣ expo then
    let result := powSpecLoop (expo / 1000000).natAbs base ONE
    if expo < 0 then divide ONE result else .ok result
  else do
    let l ← ln base
    exp (multiply l expo)

theorem powLoop_eq_specLoop : ∀ (n : Nat) (b r : Int),
    powLoop n b r = powSpecLoop n b r := by
  intro n
  induction n using Nat.strong_induction_on with
  | _ n ih =>
    intro b r
    rw [powLoop, powSpecLoop]
    by_cases h : n = 0
    · simp [h]
    · simp only [h, if_false]
      exact ih (n / 2) (Nat.div_lt_self (Nat.pos_of_ne_zero h) (by norm_num)) _ _

theorem frac_eq_zero_iff (e : Int) : frac e = 0 ↔ (1000000 : Int) ∣ e := by
  simp only [frac, subtract, floor, SCALE]
  omega

/-- C8: pow implements the claimed algorithm: ONE for exponent 0 (any base),
a copy with the value of base for exponent 1, exponentiation by squaring on
the absolute exponent with reciprocal for other integer-valued exponents,
and exp(ln(base) * exponent) for fractional exponents. -/
theorem pow_matches_spec : ∀ b e : Int, pow b e = powSpec b e := by
  intro b e
  unfold pow powSpec
  simp only [ZERO]
  by_cases h0 : e = 0
  · simp [h0]
  · simp only [h0, if_false]
    by_cases h1 : e = ONE
    · simp [h1, ofValue_scale_self]
    · simp only [h1, if_false]
      by_cases h2 : (1000000 : Int) ∣ e
      · have hf : frac e = 0 := (frac_eq_zero_iff e).mpr h2
        have hov : ofValue b 1000000 = b := by
          have h := ofValue_scale_self b
          simpa [SCALE] using h
        simp only [hf, h2, if_true, powLoop_eq_specLoop, SCALE, hov]
      · have hf : ¬ frac e = 0 := fun h => h2 ((frac_eq_zero_iff e).mp h)
        simp only [hf, h2, if_false]

theorem multiply_zero_zero : multiply (0 : Int) 0 = 0 := by decide

theorem powLoop_zero_base : ∀ n : Nat, 1 ≤ n → ∀ r : Int, powLoop n 0 r = 0 := by
  intro n
  induction n using Nat.strong_induction_on with
  | _ n ih =>
    intro hn r
    rw [powLoop]
    have h : ¬ n = 0 := by omega
    simp only [h, if_false, multiply_zero_zero]
    by_cases h2 : n / 2 = 0
    · have hone : n = 1 := by omega
      subst hone
      rw [powLoop]
      simp [multiply_zero_right]
    · exact ih (n / 2) (Nat.div_lt_self (Nat.pos_of_ne_zero h) (by norm_num))
        (by omega) _

/-- C10: with base zero and a negative integer exponent, pow fails with the
division-by-zero error coming from the final reciprocal ONE / 0, rather than
a domain error or a value. -/
theorem pow_zero_negative_exponent : ∀ e : Int, e < 0 → (1000000 : Int) ∣ e →
    pow 0 e = Except.error Err.divisionByZero := by
  intro e hneg hdvd
  have hfrac : frac e = ZERO := by
    simp only [ZERO]
    exact (frac_eq_zero_iff e).mpr hdvd
  unfold pow
  have h0 : ¬ e = ZERO := by simp only [ZERO]; omega
  have h1 : ¬ e = ONE := by simp only [ONE]; omega
  have hv : ofValue 0 SCALE = 0 := by decide
  have hn : 1 ≤ (e / SCALE).natAbs := by
    simp only [SCALE]
    omega
  have hlt : e < ZERO := by simp only [ZERO]; exact hneg
  simp only [h0, h1, hfrac, if_true, if_false, hv, hlt,
    powLoop_zero_base _ hn, divide]

/-- C10 witness: the concrete edge case pow(0, -2). -/
theorem pow_zero_negative_exponent_witness :
    (-2000000 : Int) < 0 ∧ (1000000 : Int) ∣ (-2000000 : Int) ∧
    pow 0 (-2000000) = Except.error Err.divisionByZero :=
  ⟨by norm_num, by norm_num,
    pow_zero_negative_exponent (-2000000) (by norm_num) (by norm_num)⟩

/-! ### C2: angle normalization and sin -/

/-- First while loop of `normalizeAngle`:
`while (normalized.greaterThan(PI)) normalized = normalized.subtract(TWO_PI)`. -/
def normLoop1 (v : Int) : Int :=
  if _h : PI < v then normLoop1 (subtract v TWO_PI) else v
  termination_by (v - PI).toNat
  decreasing_by
    simp_wf
    simp only [subtract, PI, TWO_PI] at *
    omega

/-- Second while loop of `normalizeAngle`:
`while (normalized.lessThanOrEqual(PI.negate())) normalized = normalized.add(TWO_PI)`. -/
def normLoop2 (v : Int) : Int :=
  if _h : v ≤ negate PI then normLoop2 (add v TWO_PI) else v
  termination_by (negate PI - v + TWO_PI).toNat
  decreasing_by
    simp_wf
    simp only [add, negate, PI, TWO_PI] at *
    omega

/-- `normalizeAngle`: copies the angle through `new Fixed(angle.toNumber())`
and then runs the two reduction loops. -/
def normalizeAngle (angle : Int) : Int :=
  normLoop2 (normLoop1 (ofValue angle SCALE))

/-- The `SIN_TABLE` lookup of the source: keys are the raw values of
0, PI_4, PI_2 and PI; values are `ZERO`, `new Fixed(0.7071067811865476)`,
`ONE` and `ZERO`. -/
def sinTable (n : Int) : Option Int :=
  if n = 0 then some ZERO
  else if n = PI_4 then some 707107
  else if n = PI_2 then some ONE
  else if n = PI then some ZERO
  else none

/-- The Taylor loop of `sin`: for i = 1, 3, ..., 11,
`result = result.add(term.multiply(termSign).divide(new Fixed(FACTORIALS[i] || 1)));
term = term.multiply(x_squared); termSign = termSign.negate()`. -/
def sinTaylorGo (x2 : Int) : List Nat → Int → Int → Int → Except Err Int
  | [], result, _term, _sign => .ok result
  | i :: rest, result, term, sign => do
      let t ← divide (multiply term sign) (ofValue (FACTORIALS.getD i 1) 1)
      sinTaylorGo x2 rest (add result t) (multiply term x2) (negate sign)

/-- `Fixed.sin`: normalize, table lookup, symmetry folding, Taylor series. -/
def sin (angle : Int) : Except Err Int :=
  let n := normalizeAngle angle
  match sinTable n with
  | some v => .ok v
  | none =>
      let x1 := if n < ZERO then negate n else n
      let sign := if n < ZERO then negate ONE else ONE
      let x := if PI_2 < x1 then subtract PI x1 else x1
      let x2 := multiply x x
      do
        let r ← sinTaylorGo x2 [1, 3, 5, 7, 9, 11] ZERO x ONE
        .ok (multiply r sign)

/-- `Fixed.cos`: `sin(angle.add(PI_HALF))`. -/
def cos (angle : Int) : Except Err Int :=
  sin (add angle PI_HALF)

/-- `Fixed.tan`: compute cos, fail when its absolute value is below the
threshold `new Fixed(0.01)`, else divide sin by cos. -/
def tan (angle : Int) : Except Err Int := do
  let c ← cos angle
  if abs c < ofValue 1 100 then .error .undefinedTangent
  else do
    let s ← sin angle
    divide s c

/-! Raw values of the factorial constants used in the sin loop. -/

theorem factorials_getD_1 : FACTORIALS.getD 1 1 = 1 := rfl

theorem factorials_getD_3 : FACTORIALS.getD 3 1 = 6 := rfl

theorem factorials_getD_5 : FACTORIALS.getD 5 1 = 120 := rfl

theorem factorials_getD_7 : FACTORIALS.getD 7 1 = 5040 := rfl

theorem factorials_getD_9 : FACTORIALS.getD 9 1 = 362880 := rfl

theorem factorials_getD_11 : FACTORIALS.getD 11 1 = 39916800 := rfl

/-- Modelled from the claim wording of C2: the alternating Taylor sum over
odd powers 1 through 11 with precomputed factorials,
x - x³/3! + x⁵/5! - x⁷/7! + x⁹/9! - x¹¹/11!, evaluated entirely in
fixed-point arithmetic with the powers built by successive multiplication
by x². -/
def taylorSinDeg11 (x : Int) : Except Err Int := do
  let x2 := multiply x x
  let p3 := multiply x x2
  let p5 := multiply p3 x2
  let p7 := multiply p5 x2
  let p9 := multiply p7 x2
  let p11 := multiply p9 x2
  let t1 ← divide x (ofValue 1 1)
  let t3 ← divide (negate p3) (ofValue 6 1)
  let t5 ← divide p5 (ofValue 120 1)
  let t7 ← divide (negate p7) (ofValue 5040 1)
  let t9 ← divide p9 (ofValue 362880 1)
  let t11 ← divide (negate p11) (ofValue 39916800 1)
  .ok (add (add (add (add (add t1 t3) t5) t7) t9) t11)

/-- Modelled from the claim wording of C2: normalize, return the table value
at the four landmark raw angles, fold with sin(-x) = -sin(x) and
sin(π - x) = sin(x), and evaluate the alternating Taylor sum. -/
def sinSpec (angle : Int) : Except Err Int :=
  let n := normalizeAngle angle
  if n = 0 then .ok 0
  else if n = PI_4 then .ok 707107
  else if n = PI_2 then .ok ONE
  else if n = PI then .ok 0
  else
    let y := if n < 0 then -n else n
    let x := if PI_2 < y then subtract PI y else y
    do
      let t ← taylorSinDeg11 x
      .ok (if n < 0 then -t else t)

theorem negate_negate (t : Int) : negate (negate t) = t := by
  simp [negate]

theorem add_zero_left_int (t : Int) : add 0 t = t := by
  simp [add]

/-- Fixed multiplication by minus ONE is exact negation. -/
theorem multiply_neg_one (t : Int) : multiply t (-ONE) = -t := by
  have h := multiply_negONE t
  simpa [negate] using h

theorem sinTaylorGo_run (x : Int) :
    sinTaylorGo (multiply x x) [1, 3, 5, 7, 9, 11] 0 x ONE =
      taylorSinDeg11 x := by
  simp only [sinTaylorGo, taylorSinDeg11, factorials_getD_1, factorials_getD_3,
    factorials_getD_5, factorials_getD_7, factorials_getD_9, factorials_getD_11,
    negate_negate, multiply_ONE, multiply_negONE, add_zero_left_int]
  rfl

theorem bind_mul_one (m : Except Err Int) :
    (m >>= fun r => Except.ok (multiply r ONE)) =
      (m >>= fun t => Except.ok t) := by
  cases m with
  | error e => rfl
  | ok t =>
    show Except.ok (multiply t ONE) = Except.ok t
    rw [multiply_ONE]

theorem bind_mul_neg_one (m : Except Err Int) :
    (m >>= fun r => Except.ok (multiply r (-ONE))) =
      (m >>= fun t => Except.ok (-t)) := by
  cases m with
  | error e => rfl
  | ok t =>
    show Except.ok (multiply t (-ONE)) = Except.ok (-t)
    rw [multiply_neg_one]

theorem normLoop1_bounds : ∀ v : Int,
    normLoop1 v ≤ PI ∧ (-PI < v → -PI < normLoop1 v) := by
  suffices aux : ∀ (m : Nat) (v : Int), (v - PI).toNat ≤ m →
      normLoop1 v ≤ PI ∧ (-PI < v → -PI < normLoop1 v) by
    intro v
    exact aux (v - PI).toNat v le_rfl
  intro m
  induction m with
  | zero =>
    intro v hv
    have hle : ¬ PI < v := by
      simp only [PI] at *
      omega
    rw [normLoop1]
    rw [dif_neg hle]
    exact ⟨le_of_not_lt hle, fun hh => hh⟩
  | succ m ih =>
    intro v hv
    rw [normLoop1]
    by_cases h : PI < v
    · rw [dif_pos h]
      have hm : (subtract v TWO_PI - PI).toNat ≤ m := by
        simp only [subtract, PI, TWO_PI] at *
        omega
      have hrec := ih (subtract v TWO_PI) hm
      refine ⟨hrec.1, fun _ => hrec.2 ?_⟩
      simp only [subtract, PI, TWO_PI] at *
      omega
    · rw [dif_neg h]
      exact ⟨le_of_not_lt h, fun hh => hh⟩

theorem normLoop2_bounds : ∀ v : Int,
    -PI < normLoop2 v ∧ (v ≤ PI → normLoop2 v ≤ PI) := by
  suffices aux : ∀ (m : Nat) (v : Int), (negate PI - v + TWO_PI).toNat ≤ m →
      -PI < normLoop2 v ∧ (v ≤ PI → normLoop2 v ≤ PI) by
    intro v
    exact aux (negate PI - v + TWO_PI).toNat v le_rfl
  intro m
  induction m with
  | zero =>
    intro v hv
    have hgt : ¬ v ≤ negate PI := by
      simp only [negate, PI, TWO_PI] at *
      omega
    rw [normLoop2]
    rw [dif_neg hgt]
    constructor
    · simp only [negate, PI] at *
      omega
    · exact fun hh => hh
  | succ m ih =>
    intro v hv
    rw [normLoop2]
    by_cases h : v ≤ negate PI
    · rw [dif_pos h]
      have hm : (negate PI - add v TWO_PI + TWO_PI).toNat ≤ m := by
        simp only [add, negate, PI, TWO_PI] at *
        omega
      have hrec := ih (add v TWO_PI) hm
      refine ⟨hrec.1, fun _ => hrec.2 ?_⟩
      simp only [add, negate, PI, TWO_PI] at *
      omega
    · rw [dif_neg h]
      constructor
      · simp only [negate, PI] at *
        omega
      · exact fun hh => hh

theorem normLoop1_shift : ∀ v : Int, ∃ k : Int, normLoop1 v = v + k * TWO_PI := by
  suffices aux : ∀ (m : Nat) (v : Int), (v - PI).toNat ≤ m →
      ∃ k : Int, normLoop1 v = v + k * TWO_PI by
    intro v
    exact aux (v - PI).toNat v le_rfl
  intro m
  induction m with
  | zero =>
    intro v hv
    have hle : ¬ PI < v := by
      simp only [PI] at *
      omega
    rw [normLoop1]
    rw [dif_neg hle]
    exact ⟨0, by ring⟩
  | succ m ih =>
    intro v hv
    rw [normLoop1]
    by_cases h : PI < v
    · rw [dif_pos h]
      have hm : (subtract v TWO_PI - PI).toNat ≤ m := by
        simp only [subtract, PI, TWO_PI] at *
        omega
      obtain ⟨k, hk⟩ := ih (subtract v TWO_PI) hm
      refine ⟨k - 1, ?_⟩
      rw [hk]
      simp only [subtract]
      ring
    · rw [dif_neg h]
      exact ⟨0, by ring⟩

theorem normLoop2_shift : ∀ v : Int, ∃ k : Int, normLoop2 v = v + k * TWO_PI := by
  suffices aux : ∀ (m : Nat) (v : Int), (negate PI - v + TWO_PI).toNat ≤ m →
      ∃ k : Int, normLoop2 v = v + k * TWO_PI by
    intro v
    exact aux (negate PI - v + TWO_PI).toNat v le_rfl
  intro m
  induction m with
  | zero =>
    intro v hv
    have hgt : ¬ v ≤ negate PI := by
      simp only [negate, PI, TWO_PI] at *
      omega
    rw [normLoop2]
    rw [dif_neg hgt]
    exact ⟨0, by ring⟩
  | succ m ih =>
    intro v hv
    rw [normLoop2]
    by_cases h : v ≤ negate PI
    · rw [dif_pos h]
      have hm : (negate PI - add v TWO_PI + TWO_PI).toNat ≤ m := by
        simp only [add, negate, PI, TWO_PI] at *
        omega
      obtain ⟨k, hk⟩ := ih (add v TWO_PI) hm
      refine ⟨k + 1, ?_⟩
      rw [hk]
      simp only [add]
      ring
    · rw [dif_neg h]
      exact ⟨0, by ring⟩

/-- The normalized angle lies in the half-open raw interval (-PI, PI]. -/
theorem normalizeAngle_bounds (x : Int) :
    -PI < normalizeAngle x ∧ normalizeAngle x ≤ PI := by
  unfold normalizeAngle
  rw [ofValue_scale_self]
  have h1 := normLoop1_bounds x
  have h2 := normLoop2_bounds (normLoop1 x)
  exact ⟨h2.1, h2.2 h1.1⟩

/-- Normalization only adds or subtracts whole multiples of TWO_PI. -/
theorem normalizeAngle_shift (x : Int) :
    ∃ k : Int, normalizeAngle x = x + k * TWO_PI := by
  unfold normalizeAngle
  rw [ofValue_scale_self]
  obtain ⟨k1, hk1⟩ := normLoop1_shift x
  obtain ⟨k2, hk2⟩ := normLoop2_shift (normLoop1 x)
  refine ⟨k1 + k2, ?_⟩
  rw [hk2, hk1]
  ring

theorem sin_eq_sinSpec (angle : Int) : sin angle = sinSpec angle := by
  unfold sin sinSpec sinTable
  simp only [ZERO, negate]
  by_cases h0 : normalizeAngle angle = 0
  · simp [h0]
  · simp only [h0, if_false]
    by_cases h4 : normalizeAngle angle = PI_4
    · simp [h4]
    · simp only [h4, if_false]
      by_cases h2 : normalizeAngle angle = PI_2
      · simp [h2]
      · simp only [h2, if_false]
        by_cases hp : normalizeAngle angle = PI
        · simp [hp]
        · simp only [hp, if_false]
          by_cases hneg : normalizeAngle angle < 0
          · simp only [hneg, if_true]
            rw [sinTaylorGo_run, bind_mul_neg_one]
          · simp only [hneg, if_false]
            rw [sinTaylorGo_run, bind_mul_one]

/-- C2: sin normalizes its angle into the raw interval (-PI, PI] by shifting
by whole multiples of TWO_PI, returns the lookup-table value exactly at the
normalized raw angles 0, PI_4, PI_2 and PI, and otherwise folds by the two
sine symmetries and evaluates the alternating degree-11 Taylor sum with
precomputed factorials, entirely in fixed-point arithmetic. -/
theorem sin_matches_spec : ∀ x : Int,
    (-PI < normalizeAngle x ∧ normalizeAngle x ≤ PI) ∧
    (∃ k : Int, normalizeAngle x = x + k * TWO_PI) ∧
    sin x = sinSpec x :=
  fun x => ⟨normalizeAngle_bounds x, normalizeAngle_shift x, sin_eq_sinSpec x⟩

/-! ### C7: tan -/

theorem ofValue_1_1 : ofValue 1 1 = 1000000 := by decide

theorem ofValue_6_1 : ofValue 6 1 = 6000000 := by decide

theorem ofValue_120_1 : ofValue 120 1 = 120000000 := by decide

theorem ofValue_5040_1 : ofValue 5040 1 = 5040000000 := by decide

theorem ofValue_362880_1 : ofValue 362880 1 = 362880000000 := by decide

theorem ofValue_39916800_1 : ofValue 39916800 1 = 39916800000000 := by decide

/-- The tan threshold `new Fixed(0.01)` has raw value 10000. -/
theorem ofValue_1_100 : ofValue 1 100 = 10000 := by decide

theorem taylorSinDeg11_ok (x : Int) : ∃ v, taylorSinDeg11 x = Except.ok v := by
  unfold taylorSinDeg11
  simp only [divide, ofValue_1_1, ofValue_6_1, ofValue_120_1, ofValue_5040_1,
    ofValue_362880_1, ofValue_39916800_1]
  norm_num
  exact ⟨_, rfl⟩

theorem bind_ok_exists {m : Except Err Int} (hm : ∃ v, m = Except.ok v)
    (f : Int → Int) :
    ∃ v, (m >>= fun r => Except.ok (f r)) = Except.ok v := by
  obtain ⟨w, hw⟩ := hm
  exact ⟨f w, by rw [hw]; rfl⟩

/-- The sin computation never throws: every division in the Taylor loop has
a nonzero constant divisor. -/
theorem sin_ok (x : Int) : ∃ v, sin x = Except.ok v := by
  unfold sin
  cases hT : sinTable (normalizeAngle x) with
  | some v =>
    simp only [hT]
    exact ⟨v, rfl⟩
  | none =>
    simp only [hT, ZERO, negate]
    rw [sinTaylorGo_run]
    exact bind_ok_exists (taylorSinDeg11_ok _) _

theorem cos_ok (x : Int) : ∃ v, cos x = Except.ok v := sin_ok (add x PI_HALF)

theorem normalizeAngle_fix (v : Int) (h1 : ¬ PI < v) (h2 : ¬ v ≤ negate PI) :
    normalizeAngle v = v := by
  unfold normalizeAngle
  rw [ofValue_scale_self]
  rw [normLoop1, dif_neg h1]
  rw [normLoop2, dif_neg h2]

theorem sin_3141592 : sin 3141592 = Except.ok 1 := by
  have hn : normalizeAngle 3141592 = 3141592 :=
    normalizeAngle_fix 3141592 (by norm_num [PI]) (by norm_num [negate, PI])
  unfold sin
  rw [hn]
  rfl

theorem sin_785398 : sin 785398 = Except.ok 707107 := by
  have hn : normalizeAngle 785398 = 785398 :=
    normalizeAngle_fix 785398 (by norm_num [PI]) (by norm_num [negate, PI])
  unfold sin
  rw [hn]
  rfl

theorem sin_2356194 : sin 2356194 = Except.ok 707106 := by
  have hn : normalizeAngle 2356194 = 2356194 :=
    normalizeAngle_fix 2356194 (by norm_num [PI]) (by norm_num [negate, PI])
  unfold sin
  rw [hn]
  rfl

theorem cos_PI_2 : cos PI_2 = Except.ok 1 := by
  unfold cos
  rw [show add PI_2 PI_HALF = (3141592 : Int) from by norm_num [add, PI_2, PI_HALF]]
  exact sin_3141592

theorem cos_PI_4 : cos PI_4 = Except.ok 707106 := by
  unfold cos
  rw [show add PI_4 PI_HALF = (2356194 : Int) from by norm_num [add, PI_4, PI_HALF]]
  exact sin_2356194

/-- C7: tan raises the undefined-tangent error exactly when the fixed-point
absolute cosine falls below the threshold value 0.01 (raw 10000), and
otherwise returns the fixed-point quotient sin/cos; tan at the PI_2 constant
raises the error, and tan at the PI_4 constant is within one raw unit of
ONE. -/
theorem tan_spec_correct : ∀ x : Int,
    (∃ s c, sin x = Except.ok s ∧ cos x = Except.ok c ∧
      tan x = (if abs c < ofValue 1 100 then Except.error Err.undefinedTangent
        else divide s c)) ∧
    tan PI_2 = Except.error Err.undefinedTangent ∧
    (∃ t, tan PI_4 = Except.ok t ∧ abs (subtract t ONE) ≤ 1) := by
  intro x
  refine ⟨?_, ?_, ?_⟩
  · obtain ⟨s, hs⟩ := sin_ok x
    obtain ⟨c, hc⟩ := cos_ok x
    refine ⟨s, c, hs, hc, ?_⟩
    unfold tan
    rw [hc]
    show (if abs c < ofValue 1 100 then Except.error Err.undefinedTangent
      else sin x >>= fun r => divide r c) =
      (if abs c < ofValue 1 100 then Except.error Err.undefinedTangent
        else divide s c)
    by_cases hcond : abs c < ofValue 1 100
    · rw [if_pos hcond, if_pos hcond]
    · rw [if_neg hcond, if_neg hcond, hs]
      rfl
  · unfold tan
    rw [cos_PI_2]
    show (if abs 1 < ofValue 1 100 then Except.error Err.undefinedTangent
      else sin PI_2 >>= fun s => divide s 1) = Except.error Err.undefinedTangent
    rw [if_pos (by norm_num [abs, ofValue_1_100])]
  · refine ⟨1000001, ?_, by decide⟩
    unfold tan
    rw [cos_PI_4]
    show (if abs 707106 < ofValue 1 100 then Except.error Err.undefinedTangent
      else sin PI_4 >>= fun s => divide s 707106) = Except.ok 1000001
    rw [if_neg (by norm_num [abs, ofValue_1_100])]
    rw [show PI_4 = (785398 : Int) from rfl, sin_785398]
    rfl

end Fixed
